import Mathlib

/-!
Shallow embedding of the local inspection record store of the
PLATAFORMA-DE-RECEBIMENTO app, together with its derived views:
validation and save (src/frontend/app/add-cargo.tsx), list filtering
(src/frontend/app/cargo-list.tsx), dashboard aggregation
(src/unnamed/part_000, the dashboard screen) and the export
orchestrator (src/frontend/app/_layout.tsx, the export-all screen).
Dates are modelled as integer timestamps (JS `new Date(...)` values
compare numerically); the key-value store (AsyncStorage) is modelled
as an explicit `Store` record threaded through the operations.
-/

namespace Receiving

/-- One photo attachment of a record; `base64` is `none` when the
capture produced no payload (the JS value `null`/`undefined`). -/
structure Photo where
  id : String
  base64 : Option String
  timestamp : Int
  width : Nat
  height : Nat
deriving DecidableEq, Repr

/-- One inspection record, as persisted in the `cargo_inspections`
document. `receiveDate = none` models an absent/empty receive date;
optional text fields are empty strings when absent. -/
structure Cargo where
  id : String
  invoiceNumber : String
  materialType : String
  quantityReceived : String
  receiveDate : Option Int
  storageLocation : String
  qualityInspector : String
  safetyInspector : String
  logisticsInspector : String
  nonConforming : Bool
  nonConformanceType : String
  nonConformingQuantity : String
  notes : String
  photos : List Photo
  inspectionDate : Int
  lastModified : Int
  exported : Bool
  exportDate : Option Int
deriving DecidableEq, Repr

/-- One entry of the persisted `pending_sync` document. -/
structure SyncEntry where
  id : String
  invoiceNumber : String
  syncAction : String
  syncTimestamp : Int
deriving DecidableEq, Repr

/-- The persisted AsyncStorage state used by the core flows. -/
structure Store where
  cargos : List Cargo
  pending : List SyncEntry
  lastQualityInspector : Option String
deriving DecidableEq, Repr

/-- The editable form state of add-cargo.tsx (`formData`); it carries
no identity, lifecycle timestamps or export state. -/
structure FormData where
  invoiceNumber : String
  materialType : String
  quantityReceived : String
  receiveDate : Option Int
  storageLocation : String
  qualityInspector : String
  safetyInspector : String
  logisticsInspector : String
  nonConforming : Bool
  nonConformanceType : String
  nonConformingQuantity : String
  notes : String
  photos : List Photo
deriving DecidableEq, Repr

/-- Does `pat` occur at the head of `cs`? (character-list matching
used below to model JS string parsing). -/
def strLead : List Char → List Char → Bool
  | [], _ => true
  | _ :: _, [] => false
  | a :: as, b :: bs => a == b && strLead as bs

/-- Drop one leading `+`/`-` sign, as JS `parseFloat` does. -/
def stripSign : List Char → List Char
  | [] => []
  | c :: cs => if c == '+' || c == '-' then cs else c :: cs

/-- After sign stripping, does the character stream start with a
parseable float: a digit, a dot followed by a digit, or `Infinity`? -/
def startsFloat : List Char → Bool
  | [] => false
  | c :: cs =>
    if c.isDigit then true
    else if c == '.' then
      match cs with
      | [] => false
      | d :: _ => d.isDigit
    else strLead ("Infinity".toList) (c :: cs)

/-- `isNaN(parseFloat(s))` of add-cargo.tsx:195 — `parseFloat` skips
leading whitespace, accepts an optional sign, then needs a digit,
`.digit`, or `Infinity`; anything else yields `NaN`. -/
def parseFloatNaN (s : String) : Bool :=
  !(startsFloat (stripSign (s.toList.dropWhile Char.isWhitespace)))

/-- JS `String.prototype.trim`: strip leading and trailing
whitespace. -/
def jsTrim (s : String) : String :=
  String.mk (((s.toList.dropWhile Char.isWhitespace).reverse.dropWhile Char.isWhitespace).reverse)

/-- `validateForm` of add-cargo.tsx:173-202: the errors object is
empty iff the three required fields are non-empty after trimming and,
when `nonConforming`, the non-conformance type is set and the
non-conforming quantity is a non-empty numeric string. -/
def validateForm (f : FormData) : Bool :=
  !(jsTrim f.invoiceNumber == "") &&
  !(jsTrim f.materialType == "") &&
  !(jsTrim f.qualityInspector == "") &&
  (!f.nonConforming ||
    (!(f.nonConformanceType == "") &&
     !(jsTrim f.nonConformingQuantity == "") &&
     !parseFloatNaN f.nonConformingQuantity))

/-- JS `cargos.findIndex(c => c.id === editId)` (add-cargo.tsx:408),
with the `-1` result modelled as `none`. -/
def findIndexById : List Cargo → String → Option Nat
  | [], _ => none
  | c :: cs, i => if c.id = i then some 0 else (findIndexById cs i).map (fun n => n + 1)

/-- JS `cargos.find(c => c.id === editId)` (add-cargo.tsx:463). -/
def findById : List Cargo → String → Option Cargo
  | [], _ => none
  | c :: cs, i => if c.id = i then some c else findById cs i

/-- `getExistingInspectionDate` of add-cargo.tsx:459-468: the stored
record's `inspectionDate`, or the current time if the id is absent. -/
def getExistingInspectionDate (cargos : List Cargo) (editId : String) (now : Int) : Int :=
  match findById cargos editId with
  | some existing => existing.inspectionDate
  | none => now

/-- `saveLastQualityInspector` of add-cargo.tsx:134-142: caches the
trimmed inspector name when it is non-empty. -/
def saveLastQualityInspector (name : String) (st : Store) : Store :=
  if !(jsTrim name == "") then { st with lastQualityInspector := some (jsTrim name) } else st

/-- The `cargoData` object built in `handleSave` (add-cargo.tsx:392-400):
the form fields plus identity, lifecycle timestamps and a fresh
`exported = false` flag (`exportDate` is not carried by the form). -/
def buildCargoData (isEdit : Bool) (editId newId : String) (f : FormData)
    (now : Int) (cargos : List Cargo) : Cargo :=
  { id := if isEdit then editId else newId
    invoiceNumber := f.invoiceNumber
    materialType := f.materialType
    quantityReceived := f.quantityReceived
    receiveDate := f.receiveDate
    storageLocation := f.storageLocation
    qualityInspector := f.qualityInspector
    safetyInspector := f.safetyInspector
    logisticsInspector := f.logisticsInspector
    nonConforming := f.nonConforming
    nonConformanceType := f.nonConformanceType
    nonConformingQuantity := f.nonConformingQuantity
    notes := f.notes
    photos := f.photos
    inspectionDate := if isEdit then getExistingInspectionDate cargos editId now else now
    lastModified := now
    exported := false
    exportDate := none }

/-- `addToPendingSync` of add-cargo.tsx:470-493: any existing entry
with the record's id is filtered out, then one fresh entry is
appended. -/
def addToPendingSync (c : Cargo) (isEdit : Bool) (now : Int) (st : Store) : Store :=
  { st with pending :=
      st.pending.filter (fun e => e.id ≠ c.id) ++
      [{ id := c.id
         invoiceNumber := c.invoiceNumber
         syncAction := if isEdit then "update" else "create"
         syncTimestamp := now }] }

/-- Result of a save attempt: the validation-error alert path, or the
success alert path. -/
inductive SaveResult
  | validationFailed
  | saved
deriving DecidableEq, Repr

/-- `handleSave` of add-cargo.tsx:380-457. Validation failure returns
before any persistence. Otherwise the last-inspector cache is updated,
`cargoData` is built, the collection is appended to (create) or the
first record with the edit id is replaced in place with the stored
`exported` flag preserved (edit; an absent edit id leaves the
collection as it was), and the pending-sync document is rewritten by
`addToPendingSync`. -/
def handleSave (isEdit : Bool) (editId newId : String) (f : FormData)
    (now : Int) (st : Store) : SaveResult × Store :=
  if validateForm f then
    let st1 := saveLastQualityInspector f.qualityInspector st
    let cargoData := buildCargoData isEdit editId newId f now st1.cargos
    let cargos1 :=
      if isEdit then
        match findIndexById st1.cargos editId with
        | some i =>
          match st1.cargos[i]? with
          | some old => st1.cargos.set i { cargoData with exported := old.exported }
          | none => st1.cargos
        | none => st1.cargos
      else st1.cargos ++ [cargoData]
    (SaveResult.saved, addToPendingSync cargoData isEdit now { st1 with cargos := cargos1 })
  else (SaveResult.validationFailed, st)

/-- Result of the delete confirmation path of cargo-list.tsx. -/
inductive DeleteResult
  | deletedOk
deriving DecidableEq, Repr

/-- The confirmed branch of `handleDeleteCargo`
(cargo-list.tsx:142-166): the collection is rewritten without the
target id and the success alert is always shown. -/
def handleDeleteCargo (cargos : List Cargo) (targetId : String) : DeleteResult × List Cargo :=
  (DeleteResult.deletedOk, cargos.filter (fun c => c.id ≠ targetId))

/-- `markAsExported` of _layout.tsx:106-130: every record whose id is
in `cargoIds` gets `exported = true` and a fresh `exportDate`; the
pending-sync document drops every entry whose id is in `cargoIds`. -/
def markAsExported (cargoIds : List String) (now : Int) (st : Store) : Store :=
  { st with
    cargos := st.cargos.map (fun c =>
      if cargoIds.contains c.id then { c with exported := true, exportDate := some now } else c)
    pending := st.pending.filter (fun e => !cargoIds.contains e.id) }

/-- Does `needle` occur as a contiguous substring of `hay`?
(JS `String.prototype.includes` on character lists). -/
def hasSub (needle : List Char) : List Char → Bool
  | [] => needle.isEmpty
  | c :: cs => strLead needle (c :: cs) || hasSub needle cs

/-- One case-insensitive `includes` test of the search filter. -/
def fieldMatch (field query : String) : Bool :=
  hasSub query.toLower.toList field.toLower.toList

/-- The free-text search predicate of `applyFilters`
(cargo-list.tsx:70-76): case-insensitive substring match OR-ed over
invoice number, material type, quality inspector, storage location and
notes. -/
def searchMatch (query : String) (c : Cargo) : Bool :=
  fieldMatch c.invoiceNumber query ||
  fieldMatch c.materialType query ||
  fieldMatch c.qualityInspector query ||
  fieldMatch c.storageLocation query ||
  fieldMatch c.notes query

/-- `new Date(cargo.receiveDate || cargo.inspectionDate)`: the sort /
recency key, the receive date falling back to the inspection date. -/
def dateKey (c : Cargo) : Int :=
  c.receiveDate.getD c.inspectionDate

/-- The status-filter switch of `applyFilters` (cargo-list.tsx:80-101)
as an optional predicate; the default (`all` and anything unknown)
applies no filtering. `weekAgo` is the `now - 7 days` cutoff computed
in the `recent` branch. -/
def categoryPred (filter : String) (weekAgo : Int) : Option (Cargo → Bool) :=
  match filter with
  | "compliant" => some (fun c => !c.nonConforming)
  | "non-compliant" => some (fun c => c.nonConforming)
  | "recent" => some (fun c => weekAgo < dateKey c)
  | "exported" => some (fun c => c.exported)
  | "not-exported" => some (fun c => !c.exported)
  | _ => none

/-- Apply the status filter chosen by `categoryPred`. -/
def categoryFilter (filter : String) (weekAgo : Int) (l : List Cargo) : List Cargo :=
  match categoryPred filter weekAgo with
  | some p => l.filter p
  | none => l

/-- The descending-by-date order of the final sort of `applyFilters`
(cargo-list.tsx:104): `a` may come before `b` when `b`'s date key is
not larger. -/
def byDateDesc (a b : Cargo) : Prop :=
  dateKey b ≤ dateKey a

instance : DecidableRel byDateDesc :=
  fun a b => inferInstanceAs (Decidable (dateKey b ≤ dateKey a))

instance : IsTotal Cargo byDateDesc :=
  ⟨fun a b => le_total (dateKey b) (dateKey a)⟩

instance : IsTrans Cargo byDateDesc :=
  ⟨fun _ _ _ hab hbc => le_trans hbc hab⟩

/-- `applyFilters` of cargo-list.tsx:65-107: text filter (skipped for
an empty query), then status filter, then a stable sort descending by
`receiveDate || inspectionDate` (JS array sort is stable; insertion
sort realises the same stable order). -/
def applyFilters (cargoList : List Cargo) (query filter : String) (weekAgo : Int) : List Cargo :=
  let searched := if query = "" then cargoList else cargoList.filter (searchMatch query)
  let filtered := categoryFilter filter weekAgo searched
  List.insertionSort byDateDesc filtered

/-- Add one key occurrence to a first-seen-ordered tally (the JS
object-as-counter pattern; `Object.entries` yields insertion order). -/
def tallyAdd (acc : List (String × Nat)) (k : String) : List (String × Nat) :=
  if acc.any (fun kv => kv.fst = k) then
    acc.map (fun kv => if kv.fst = k then (kv.fst, kv.snd + 1) else kv)
  else acc ++ [(k, 1)]

/-- Tally a list of keys, preserving first-seen order. -/
def tally (ks : List String) : List (String × Nat) :=
  ks.foldl tallyAdd []

/-- Descending-by-count order used for the dashboard breakdowns. -/
def byCountDesc (a b : String × Nat) : Prop :=
  b.snd ≤ a.snd

instance : DecidableRel byCountDesc :=
  fun a b => inferInstanceAs (Decidable (b.snd ≤ a.snd))

/-- The dashboard statistics computed by `loadDashboardStats`. -/
structure DashboardStats where
  totalInspections : Nat
  compliantCount : Nat
  nonCompliantCount : Nat
  recentCount : Nat
  complianceRate : ℚ
  nonConformanceTypes : List (String × Nat)
  materialTypes : List (String × Nat)

/-- `loadDashboardStats` of the dashboard screen (src/unnamed/part_000,
lines 49-106). `sevenDaysAgo` is the `now - 7 days` cutoff; note the
recency test reads `cargo.inspectionDate` only. Breakdowns tally
first-seen, sort descending by count (stable) and keep the top 5. -/
def loadDashboardStats (cargos : List Cargo) (sevenDaysAgo : Int) : DashboardStats :=
  let totalInspections := cargos.length
  let compliantCount := (cargos.filter (fun c => !c.nonConforming)).length
  let nonCompliantCount := (cargos.filter (fun c => c.nonConforming)).length
  let complianceRate : ℚ :=
    if totalInspections > 0 then ((compliantCount : ℚ) / (totalInspections : ℚ)) * 100 else 0
  let recentCount := (cargos.filter (fun c => sevenDaysAgo < c.inspectionDate)).length
  let nonConformanceTypes :=
    tally ((cargos.filter (fun c => c.nonConforming && !(c.nonConformanceType == ""))).map
      (fun c => c.nonConformanceType))
  let materialTypes := tally (cargos.map (fun c => c.materialType))
  { totalInspections := totalInspections
    compliantCount := compliantCount
    nonCompliantCount := nonCompliantCount
    recentCount := recentCount
    complianceRate := complianceRate
    nonConformanceTypes := (List.insertionSort byCountDesc nonConformanceTypes).take 5
    materialTypes := (List.insertionSort byCountDesc materialTypes).take 5 }

/-- What one written export file holds: the summary report, one
record's individual report, or one photo's decoded payload. -/
inductive FileContent
  | summary
  | report (cargoId : String)
  | photoBytes (base64 : String)
deriving DecidableEq, Repr

/-- One file written during the export writing phase. -/
structure FileWrite where
  path : String
  content : FileContent
deriving DecidableEq, Repr

/-- Path of a record's individual report in the organized layout. -/
def reportsPath (dir : String) (c : Cargo) : String :=
  dir ++ "reports/INSPECAO_" ++ c.invoiceNumber ++ ".txt"

/-- The inner photo loop of `exportToDevice` (_layout.tsx:289-297):
photo `j` is written as `foto_<j+1>.jpg` only when its base64 payload
is present; a missing payload is skipped and the loop continues. -/
def photosLoop (cargoPhotoDir : String) : List Photo → Nat → List FileWrite
  | [], _ => []
  | p :: ps, j =>
    (match p.base64 with
     | some b => [⟨cargoPhotoDir ++ "foto_" ++ toString (j + 1) ++ ".jpg", FileContent.photoBytes b⟩]
     | none => []) ++ photosLoop cargoPhotoDir ps (j + 1)

/-- The files written for one record in the organized layout
(_layout.tsx:273-305): its report under `reports/`, then — when photos
are included and present — its photo files under
`photos/<invoiceNumber>/`. -/
def cargoWrites (dir : String) (includePhotos : Bool) (c : Cargo) : List FileWrite :=
  ⟨reportsPath dir c, FileContent.report c.id⟩ ::
  (if includePhotos && !c.photos.isEmpty then
    photosLoop (dir ++ "photos/" ++ c.invoiceNumber ++ "/") c.photos 0
  else [])

/-- The writing phase of `exportToDevice` (_layout.tsx:260-317): the
summary plus, per record, either the organized per-record writes or a
flat per-record report file. -/
def exportWrites (dir : String) (includePhotos : Bool) (format : String)
    (cargos : List Cargo) : List FileWrite :=
  if format = "organized" then
    ⟨dir ++ "RELATORIO_RESUMO.txt", FileContent.summary⟩ ::
      cargos.flatMap (cargoWrites dir includePhotos)
  else
    ⟨dir ++ "resumo.txt", FileContent.summary⟩ ::
      cargos.map (fun c => ⟨dir ++ c.invoiceNumber ++ ".txt", FileContent.report c.id⟩)

/-- Outcome of one device-export run. -/
inductive ExportOutcome
  | emptySelection
  | completedShared
  | completedNoShare
  | failed
deriving DecidableEq, Repr

/-- `exportToDevice` of _layout.tsx:233-349. The scope is resolved
from the selection; an empty scope alerts and returns. `fsOk` models
whether the directory/file writing phase completes (an exception there
jumps to the catch with storage untouched). When writing completes,
`markAsExported` commits the export state, and only then is the share
capability consulted: a share failure lands in the catch with the
store already committed. The third component lists the files
written. -/
def exportToDevice (st : Store) (selected : List String) (includePhotos : Bool)
    (format dir : String) (now : Int) (fsOk shareAvailable shareOk : Bool) :
    ExportOutcome × Store × List FileWrite :=
  let cargosToExport := st.cargos.filter (fun c => selected.contains c.id)
  if cargosToExport.isEmpty then (ExportOutcome.emptySelection, st, [])
  else if !fsOk then (ExportOutcome.failed, st, [])
  else
    let writes := exportWrites dir includePhotos format cargosToExport
    let st1 := markAsExported selected now st
    if shareAvailable then
      if shareOk then (ExportOutcome.completedShared, st1, writes)
      else (ExportOutcome.failed, st1, writes)
    else (ExportOutcome.completedNoShare, st1, writes)

/-! ## Helper lemmas -/

/-- The last-inspector cache update leaves the record collection alone. -/
lemma saveLast_cargos (n : String) (st : Store) :
    (saveLastQualityInspector n st).cargos = st.cargos := by
  unfold saveLastQualityInspector
  split <;> rfl

/-- The last-inspector cache update leaves the pending-sync list alone. -/
lemma saveLast_pending (n : String) (st : Store) :
    (saveLastQualityInspector n st).pending = st.pending := by
  unfold saveLastQualityInspector
  split <;> rfl

/-- `validateForm` rejects exactly the field-sets named by the spec:
a required field empty after trimming, or a non-conforming record with
the type unset or the quantity empty or non-numeric. -/
lemma validateForm_eq_false_iff (f : FormData) :
    validateForm f = false ↔
      (jsTrim f.invoiceNumber = "" ∨ jsTrim f.materialType = "" ∨
       jsTrim f.qualityInspector = "" ∨
       (f.nonConforming = true ∧
         (f.nonConformanceType = "" ∨ jsTrim f.nonConformingQuantity = "" ∨
          parseFloatNaN f.nonConformingQuantity = true))) := by
  rw [Bool.eq_false_iff]
  unfold validateForm
  simp only [Bool.and_eq_true, Bool.or_eq_true, Bool.not_eq_true', beq_eq_false_iff_ne,
    beq_iff_eq, Bool.eq_false_iff, ne_eq]
  tauto

/-! ## C2 -/

/-- C2: `create` (handleSave in create mode) fails with the
validation-error path exactly when `invoiceNumber`, `materialType` or
`qualityInspector` is empty after trimming, or `nonConforming = true`
and the non-conformance type is missing, the non-conforming quantity
is missing, or that quantity is not numeric (JS `parseFloat` yields
`NaN`); and on such a failure the whole persisted store — record
collection and pending_sync included — is unchanged. -/
theorem create_validation_exact (f : FormData) (newId : String) (now : Int) (st : Store) :
    ((handleSave false "" newId f now st).fst = SaveResult.validationFailed ↔
      (jsTrim f.invoiceNumber = "" ∨ jsTrim f.materialType = "" ∨
       jsTrim f.qualityInspector = "" ∨
       (f.nonConforming = true ∧
         (f.nonConformanceType = "" ∨ jsTrim f.nonConformingQuantity = "" ∨
          parseFloatNaN f.nonConformingQuantity = true)))) ∧
    ((handleSave false "" newId f now st).fst = SaveResult.validationFailed →
      (handleSave false "" newId f now st).snd = st) := by
  constructor
  · rw [← validateForm_eq_false_iff]
    unfold handleSave
    cases hv : validateForm f <;> simp [hv]
  · intro hfail
    unfold handleSave at hfail ⊢
    cases hv : validateForm f <;> simp [hv] at hfail ⊢

/-- A concrete form whose only defect is an untrimmed-empty quality
inspector. -/
def formNoInspector : FormData :=
  { invoiceNumber := "NF-10"
    materialType := "Steel"
    quantityReceived := "5"
    receiveDate := some 100
    storageLocation := ""
    qualityInspector := "   "
    safetyInspector := ""
    logisticsInspector := ""
    nonConforming := false
    nonConformanceType := ""
    nonConformingQuantity := ""
    notes := ""
    photos := [] }

/-- Witness for C2: with a whitespace-only quality inspector the save
is rejected and the store `⟨[], [], none⟩` comes back untouched. -/
theorem create_validation_exact_witness :
    (handleSave false "" "9" formNoInspector 7 ⟨[], [], none⟩).fst = SaveResult.validationFailed ∧
    (handleSave false "" "9" formNoInspector 7 ⟨[], [], none⟩).snd = ⟨[], [], none⟩ := by
  constructor
  · exact (create_validation_exact formNoInspector "9" 7 ⟨[], [], none⟩).1.mpr
      (Or.inr (Or.inr (Or.inl (by decide))))
  · exact (create_validation_exact formNoInspector "9" 7 ⟨[], [], none⟩).2
      ((create_validation_exact formNoInspector "9" 7 ⟨[], [], none⟩).1.mpr
        (Or.inr (Or.inr (Or.inl (by decide)))))

/-! ## C3 -/

/-- `findIndexById` and `findById` agree: the element at the first
matching index is the first match. -/
lemma findIndexById_get (l : List Cargo) (s : String) :
    ∀ i, findIndexById l s = some i → l[i]? = findById l s := by
  induction l with
  | nil => intro i h; simp [findIndexById] at h
  | cons c cs ih =>
    intro i h
    by_cases hc : c.id = s
    · simp [findIndexById, hc] at h
      simp [findById, hc, ← h]
    · simp [findIndexById, hc, Option.map_eq_some'] at h
      obtain ⟨j, hj, hij⟩ := h
      simp [findById, hc, ← hij, ih j hj]

/-- C3: editing an existing record through `handleSave` keeps the
stored record's `inspectionDate` and `exported` flag at their
pre-update values (the form carries neither field, and `handleSave`
recovers both from the stored record) and stamps `lastModified` with
the update time. -/
theorem update_preserves_immutables (st : Store) (editId : String) (f : FormData) (now : Int)
    (i : Nat) (old : Cargo)
    (hidx : findIndexById st.cargos editId = some i)
    (hold : st.cargos[i]? = some old)
    (hval : validateForm f = true) :
    ∃ c1, ((handleSave true editId "" f now st).snd.cargos)[i]? = some c1 ∧
      c1.inspectionDate = old.inspectionDate ∧
      c1.exported = old.exported ∧
      c1.lastModified = now := by
  have hfind : findById st.cargos editId = some old := by
    rw [← findIndexById_get st.cargos editId i hidx, hold]
  have hcargos : (saveLastQualityInspector f.qualityInspector st).cargos = st.cargos :=
    saveLast_cargos _ _
  have hlen : i < st.cargos.length := by
    have := List.getElem?_eq_some_iff.mp hold
    exact this.1
  refine ⟨{ buildCargoData true editId "" f now st.cargos with exported := old.exported }, ?_, ?_, ?_, ?_⟩
  · unfold handleSave
    rw [hval]
    simp only [if_pos rfl, addToPendingSync, hcargos, hidx, hold, if_pos]
    simp [List.getElem?_set, hlen]
  · simp [buildCargoData, getExistingInspectionDate, hfind]
  · rfl
  · rfl

/-- A stored record used by the positive-path witnesses: already
exported, with an old inspection date. -/
def cargoA : Cargo :=
  { id := "1"
    invoiceNumber := "NF-1"
    materialType := "Steel"
    quantityReceived := "10"
    receiveDate := some 100
    storageLocation := "A"
    qualityInspector := "Ana"
    safetyInspector := ""
    logisticsInspector := ""
    nonConforming := false
    nonConformanceType := ""
    nonConformingQuantity := ""
    notes := ""
    photos := []
    inspectionDate := 90
    lastModified := 90
    exported := true
    exportDate := some 95 }

/-- A valid edit form for `cargoA` that changes several fields. -/
def formEditA : FormData :=
  { invoiceNumber := "NF-1"
    materialType := "Copper"
    quantityReceived := "12"
    receiveDate := some 150
    storageLocation := "B"
    qualityInspector := "Bea"
    safetyInspector := ""
    logisticsInspector := ""
    nonConforming := true
    nonConformanceType := "nonConformance.physicalDamage"
    nonConformingQuantity := "2"
    notes := "dent"
    photos := [] }

/-- Witness for C3: editing `cargoA` at time 200 keeps
`inspectionDate = 90` and `exported = true` while `lastModified`
becomes 200. -/
theorem update_preserves_immutables_witness :
    ∃ c1, ((handleSave true "1" "" formEditA 200 ⟨[cargoA], [], none⟩).snd.cargos)[0]? = some c1 ∧
      c1.inspectionDate = cargoA.inspectionDate ∧
      c1.exported = cargoA.exported ∧
      c1.lastModified = 200 :=
  update_preserves_immutables ⟨[cargoA], [], none⟩ "1" formEditA 200 0 cargoA
    (by decide) (by decide) (by decide)

/-! ## C4 -/

/-- Counterexample to C4 as stated: updating the absent id `"x"` on an
empty store does not fail — `handleSave` reports the success path, and
a `pending_sync` entry with `syncAction = "update"` is written for the
absent id. -/
theorem update_missing_id_cex :
    (handleSave true "x" "" formEditA 5 ⟨[], [], none⟩).fst = SaveResult.saved ∧
    (handleSave true "x" "" formEditA 5 ⟨[], [], none⟩).snd.pending =
      [{ id := "x", invoiceNumber := "NF-1", syncAction := "update", syncTimestamp := 5 }] := by
  constructor <;> decide

/-- C4 amended: updating an id that is not in the collection leaves
the stored record collection unchanged, but instead of failing with a
not-found error it reports success and still rewrites `pending_sync`,
replacing any entry with that id by a fresh `update` entry for the
absent id. -/
theorem update_missing_id (st : Store) (editId : String) (f : FormData) (now : Int)
    (hidx : findIndexById st.cargos editId = none)
    (hval : validateForm f = true) :
    (handleSave true editId "" f now st).fst = SaveResult.saved ∧
    (handleSave true editId "" f now st).snd.cargos = st.cargos ∧
    (handleSave true editId "" f now st).snd.pending =
      st.pending.filter (fun e => e.id ≠ editId) ++
      [{ id := editId, invoiceNumber := f.invoiceNumber,
         syncAction := "update", syncTimestamp := now }] := by
  have hcargos : (saveLastQualityInspector f.qualityInspector st).cargos = st.cargos :=
    saveLast_cargos _ _
  have hpending : (saveLastQualityInspector f.qualityInspector st).pending = st.pending :=
    saveLast_pending _ _
  unfold handleSave
  rw [hval]
  simp [addToPendingSync, hcargos, hpending, hidx, buildCargoData]

/-- Witness for the amended C4 at a store holding only `cargoA` and
one foreign pending entry. -/
theorem update_missing_id_witness :
    (handleSave true "x" "" formEditA 5
        ⟨[cargoA], [⟨"1", "NF-1", "create", 90⟩], none⟩).fst = SaveResult.saved ∧
    (handleSave true "x" "" formEditA 5
        ⟨[cargoA], [⟨"1", "NF-1", "create", 90⟩], none⟩).snd.cargos = [cargoA] ∧
    (handleSave true "x" "" formEditA 5
        ⟨[cargoA], [⟨"1", "NF-1", "create", 90⟩], none⟩).snd.pending =
      ([⟨"1", "NF-1", "create", 90⟩] : List SyncEntry).filter (fun e => e.id ≠ "x") ++
      [{ id := "x", invoiceNumber := "NF-1", syncAction := "update", syncTimestamp := 5 }] :=
  update_missing_id ⟨[cargoA], [⟨"1", "NF-1", "create", 90⟩], none⟩ "x" formEditA 5
    (by decide) (by decide)

/-! ## C5 -/

/-- The compliant/non-compliant filters partition the collection. -/
lemma length_filter_partition (l : List Cargo) :
    (l.filter (fun c => !c.nonConforming)).length +
      (l.filter (fun c => c.nonConforming)).length = l.length := by
  induction l with
  | nil => rfl
  | cons c cs ih =>
    cases hc : c.nonConforming <;> simp [List.filter, hc] <;> omega

/-- C5: in `loadDashboardStats`, compliant and non-compliant counts
partition the records by the `nonConforming` flag, and
`complianceRate` equals `100 * compliantCount / totalInspections` for
a non-empty collection and `0` for an empty one. -/
theorem dashboard_complianceRate (cargos : List Cargo) (cut : Int) :
    (loadDashboardStats cargos cut).compliantCount +
        (loadDashboardStats cargos cut).nonCompliantCount =
      (loadDashboardStats cargos cut).totalInspections ∧
    (0 < (loadDashboardStats cargos cut).totalInspections →
      (loadDashboardStats cargos cut).complianceRate =
        100 * ((loadDashboardStats cargos cut).compliantCount : ℚ) /
          ((loadDashboardStats cargos cut).totalInspections : ℚ)) ∧
    ((loadDashboardStats cargos cut).totalInspections = 0 →
      (loadDashboardStats cargos cut).complianceRate = 0) := by
  refine ⟨length_filter_partition cargos, ?_, ?_⟩
  · intro hpos
    have hpos2 : 0 < cargos.length := hpos
    have hne : ((cargos.length : ℚ)) ≠ 0 := by
      exact_mod_cast Nat.pos_iff_ne_zero.mp hpos2
    simp only [loadDashboardStats, if_pos hpos2]
    field_simp
    ring
  · intro hzero
    have hzero2 : cargos.length = 0 := hzero
    simp [loadDashboardStats, hzero2]

/-- Two records, one compliant and one non-conforming, for the
dashboard witnesses. -/
def cargoB : Cargo :=
  { cargoA with
    id := "2"
    invoiceNumber := "NF-2"
    nonConforming := true
    nonConformanceType := "nonConformance.physicalDamage"
    nonConformingQuantity := "1"
    exported := false
    exportDate := none }

/-- Witness for C5: on `[cargoA, cargoB]` the partition holds and the
rate equals `100 * compliantCount / totalInspections`. -/
theorem dashboard_complianceRate_witness :
    (loadDashboardStats [cargoA, cargoB] 0).compliantCount +
        (loadDashboardStats [cargoA, cargoB] 0).nonCompliantCount =
      (loadDashboardStats [cargoA, cargoB] 0).totalInspections ∧
    (loadDashboardStats [cargoA, cargoB] 0).complianceRate =
      100 * ((loadDashboardStats [cargoA, cargoB] 0).compliantCount : ℚ) /
        ((loadDashboardStats [cargoA, cargoB] 0).totalInspections : ℚ) :=
  ⟨(dashboard_complianceRate [cargoA, cargoB] 0).1,
   (dashboard_complianceRate [cargoA, cargoB] 0).2.1 (by decide)⟩

/-! ## C6 -/

/-- Every element of an `applyFilters` result came through both the
search and the status filter stage. -/
lemma mem_applyFilters {cargos : List Cargo} {query filter : String} {weekAgo : Int} {x : Cargo}
    (hx : x ∈ applyFilters cargos query filter weekAgo) :
    x ∈ categoryFilter filter weekAgo
      (if query = "" then cargos else cargos.filter (searchMatch query)) := by
  exact (List.perm_insertionSort byDateDesc _).subset hx

/-- Elements surviving `categoryFilter` come from the input list. -/
lemma categoryFilter_subset (filter : String) (weekAgo : Int) (l : List Cargo) :
    ∀ x ∈ categoryFilter filter weekAgo l, x ∈ l := by
  intro x hx
  unfold categoryFilter at hx
  cases hp : categoryPred filter weekAgo <;> rw [hp] at hx
  · exact hx
  · exact (List.mem_filter.mp hx).1

/-- Re-filtering an `applyFilters` output through `categoryFilter`
with the same arguments changes nothing. -/
lemma categoryFilter_applyFilters (cargos : List Cargo) (query filter : String) (weekAgo : Int) :
    categoryFilter filter weekAgo (applyFilters cargos query filter weekAgo) =
      applyFilters cargos query filter weekAgo := by
  unfold categoryFilter
  cases hp : categoryPred filter weekAgo
  · rfl
  · apply List.filter_eq_self.mpr
    intro a ha
    have hmem := mem_applyFilters ha
    unfold categoryFilter at hmem
    rw [hp] at hmem
    exact (List.mem_filter.mp hmem).2

/-- C6: with an empty query and the `all` category, `applyFilters`
returns every record (a permutation of the input), sorted descending
by `receiveDate` falling back to `inspectionDate`; and for any query
and category, re-applying `applyFilters` with the same arguments to
its own output returns that output unchanged. -/
theorem applyFilters_all_sorted_idempotent (cargos : List Cargo) (weekAgo : Int)
    (query filter : String) :
    List.Perm (applyFilters cargos "" "all" weekAgo) cargos ∧
    List.Sorted byDateDesc (applyFilters cargos "" "all" weekAgo) ∧
    applyFilters (applyFilters cargos query filter weekAgo) query filter weekAgo =
      applyFilters cargos query filter weekAgo := by
  have hpred : categoryPred "all" weekAgo = none := rfl
  have hall : applyFilters cargos "" "all" weekAgo = List.insertionSort byDateDesc cargos := by
    simp [applyFilters, categoryFilter, hpred]
  refine ⟨?_, ?_, ?_⟩
  · rw [hall]
    exact List.perm_insertionSort byDateDesc cargos
  · rw [hall]
    exact List.sorted_insertionSort byDateDesc cargos
  · have hsearch : (if query = "" then applyFilters cargos query filter weekAgo
        else (applyFilters cargos query filter weekAgo).filter (searchMatch query)) =
        applyFilters cargos query filter weekAgo := by
      by_cases hq : query = ""
      · rw [if_pos hq]
      · rw [if_neg hq]
        apply List.filter_eq_self.mpr
        intro a ha
        have hmem := categoryFilter_subset filter weekAgo _ a (mem_applyFilters ha)
        rw [if_neg hq] at hmem
        exact (List.mem_filter.mp hmem).2
    show List.insertionSort byDateDesc (categoryFilter filter weekAgo
      (if query = "" then applyFilters cargos query filter weekAgo
       else (applyFilters cargos query filter weekAgo).filter (searchMatch query))) =
      applyFilters cargos query filter weekAgo
    rw [hsearch, categoryFilter_applyFilters]
    exact List.Sorted.insertionSort_eq (List.sorted_insertionSort byDateDesc _)

/-! ## C7 -/

/-- A record received recently (`receiveDate = 10`) but inspected long
ago (`inspectionDate = 0`). -/
def cargoRecentReceive : Cargo :=
  { cargoA with id := "3", receiveDate := some 10, inspectionDate := 0, lastModified := 0 }

/-- Counterexample to C7 as stated: `cargoRecentReceive`'s relevant
date (receiveDate falling back to inspectionDate) is strictly after
the cutoff 5, so the claim counts it, yet the dashboard aggregation's
`recentCount` is 0 — it reads `inspectionDate` only. -/
theorem dashboard_recentCount_cex :
    (5 : Int) < dateKey cargoRecentReceive ∧
    ([cargoRecentReceive].filter (fun c => decide ((5 : Int) < dateKey c))).length = 1 ∧
    (loadDashboardStats [cargoRecentReceive] 5).recentCount = 0 := by
  refine ⟨by decide, by decide, by decide⟩

/-- C7 amended: the dashboard aggregation's `recentCount` counts the
records whose `inspectionDate` is strictly after `now - 7 days`;
`receiveDate` is never consulted (changing it arbitrarily leaves the
count fixed), and the receiveDate-falling-back-to-inspectionDate rule
agrees with the aggregation only when no record carries a
`receiveDate` — in that case `recentCount` matches the size of the
list view's `recent` filter output. -/
theorem dashboard_recentCount_inspectionDate (cargos : List Cargo) (cut : Int) :
    (∀ rd : Cargo → Option Int,
      (loadDashboardStats (cargos.map (fun c => { c with receiveDate := rd c })) cut).recentCount =
        (loadDashboardStats cargos cut).recentCount) ∧
    ((∀ c ∈ cargos, c.receiveDate = none) →
      (loadDashboardStats cargos cut).recentCount =
        (applyFilters cargos "" "recent" cut).length) := by
  constructor
  · intro rd
    simp only [loadDashboardStats]
    rw [List.filter_map, List.length_map]
    rfl
  · intro hnone
    have hpred : categoryPred "recent" cut = some (fun c => decide (cut < dateKey c)) := rfl
    have hlen : (applyFilters cargos "" "recent" cut).length =
        (cargos.filter (fun c => decide (cut < dateKey c))).length := by
      simp only [applyFilters, categoryFilter, hpred, if_pos rfl]
      exact (List.perm_insertionSort byDateDesc _).length_eq
    rw [hlen]
    show (cargos.filter (fun c => decide (cut < c.inspectionDate))).length =
      (cargos.filter (fun c => decide (cut < dateKey c))).length
    congr 1
    apply List.filter_congr
    intro c hc
    have : c.receiveDate = none := hnone c hc
    simp [dateKey, this]

/-- A record with no receive date, for the C7 witness. -/
def cargoC : Cargo :=
  { cargoA with id := "4", receiveDate := none, exported := false, exportDate := none }

/-- Witness for the amended C7: on `[cargoC]` (no receive dates) the
dashboard count matches the list view's `recent` filter. -/
theorem dashboard_recentCount_inspectionDate_witness :
    (loadDashboardStats [cargoC] 0).recentCount = (applyFilters [cargoC] "" "recent" 0).length :=
  (dashboard_recentCount_inspectionDate [cargoC] 0).2 (by decide)

/-! ## C8 -/

/-- Counterexample to C8 as stated: confirming deletion of the absent
id `"x"` on an empty collection is a silent no-op that is reported
through the success path, not surfaced as a caller error. -/
theorem delete_missing_id_cex :
    (handleDeleteCargo [] "x").fst = DeleteResult.deletedOk ∧
    (handleDeleteCargo [] "x").snd = [] := by
  exact ⟨rfl, rfl⟩

/-- C8 amended: the confirmed delete removes every record with the
target id and keeps every other record, and it always reports the
success alert — deleting an id that is not in the collection is a
silent no-op reported as a success, not a surfaced caller error. -/
theorem delete_removes_target (cargos : List Cargo) (targetId : String) :
    (handleDeleteCargo cargos targetId).fst = DeleteResult.deletedOk ∧
    (∀ c ∈ (handleDeleteCargo cargos targetId).snd, c.id ≠ targetId) ∧
    (∀ c ∈ cargos, c.id ≠ targetId → c ∈ (handleDeleteCargo cargos targetId).snd) ∧
    ((∀ c ∈ cargos, c.id ≠ targetId) → (handleDeleteCargo cargos targetId).snd = cargos) := by
  refine ⟨rfl, ?_, ?_, ?_⟩
  · intro c hc
    have := List.mem_filter.mp hc
    simpa using this.2
  · intro c hc hne
    exact List.mem_filter.mpr ⟨hc, by simpa using hne⟩
  · intro hall
    apply List.filter_eq_self.mpr
    intro c hc
    simpa using hall c hc

/-- Witness for the amended C8: deleting id `"2"` from
`[cargoA, cargoB]` keeps `cargoA`, drops every record with id `"2"`,
and reports success. -/
theorem delete_removes_target_witness :
    (handleDeleteCargo [cargoA, cargoB] "2").fst = DeleteResult.deletedOk ∧
    cargoA ∈ (handleDeleteCargo [cargoA, cargoB] "2").snd ∧
    (∀ c ∈ (handleDeleteCargo [cargoA, cargoB] "2").snd, c.id ≠ "2") :=
  ⟨(delete_removes_target [cargoA, cargoB] "2").1,
   (delete_removes_target [cargoA, cargoB] "2").2.2.1 cargoA (by decide) (by decide),
   (delete_removes_target [cargoA, cargoB] "2").2.1⟩

/-! ## C9 -/

/-- The photo loop writes exactly one file per photo whose base64
payload is present; photos with a missing payload are skipped. -/
lemma photosLoop_length (pdir : String) :
    ∀ (ps : List Photo) (j : Nat),
      (photosLoop pdir ps j).length = (ps.filter (fun p => p.base64.isSome)).length := by
  intro ps
  induction ps with
  | nil => intro j; rfl
  | cons p ps ih =>
    intro j
    cases hb : p.base64 <;> simp [photosLoop, hb, ih]

/-- C9: in an organized export with photos included, every record in
scope — including one owning a photo with no base64 payload, and every
record after it — still gets its individual report written, and the
photo loop writes exactly the photos whose payload is present,
skipping the payload-less ones without aborting anything. -/
theorem export_photo_isolation (dir : String) (cargos : List Cargo) (c : Cargo)
    (h : c ∈ cargos) :
    (⟨reportsPath dir c, FileContent.report c.id⟩ : FileWrite) ∈
      exportWrites dir true "organized" cargos ∧
    (∀ pdir ps j, (photosLoop pdir ps j).length =
      (ps.filter (fun p => p.base64.isSome)).length) := by
  constructor
  · unfold exportWrites
    rw [if_pos rfl]
    apply List.mem_cons_of_mem
    exact List.mem_flatMap.mpr ⟨c, h, List.mem_cons_self _ _⟩
  · exact fun pdir ps j => photosLoop_length pdir ps j

/-- A photo whose capture produced no payload. -/
def photoNone : Photo := ⟨"p1", none, 0, 0, 0⟩

/-- A photo with a payload. -/
def photoSome : Photo := ⟨"p2", some "QUJD", 0, 100, 80⟩

/-- A record owning one payload-less photo followed by one good
photo. -/
def cargoD : Cargo :=
  { cargoA with id := "5", invoiceNumber := "NF-5", photos := [photoNone, photoSome] }

/-- Witness for C9: exporting `[cargoD]` with photos still writes
`cargoD`'s report, and its photo loop writes exactly one file (the
payload-less photo is skipped). -/
theorem export_photo_isolation_witness :
    (⟨reportsPath "d/" cargoD, FileContent.report cargoD.id⟩ : FileWrite) ∈
      exportWrites "d/" true "organized" [cargoD] ∧
    (photosLoop "d/photos/NF-5/" cargoD.photos 0).length = 1 := by
  refine ⟨(export_photo_isolation "d/" [cargoD] cargoD (by decide)).1, ?_⟩
  rw [(export_photo_isolation "d/" [cargoD] cargoD (by decide)).2 "d/photos/NF-5/" cargoD.photos 0]
  decide

/-! ## C1 -/

/-- An unexported record with a live pending-sync entry. -/
def cargoE : Cargo :=
  { cargoA with id := "6", invoiceNumber := "NF-6", exported := false, exportDate := none }

/-- Store holding only `cargoE` and its pending entry. -/
def stE : Store := ⟨[cargoE], [⟨"6", "NF-6", "create", 90⟩], none⟩

/-- Counterexample to C1 as stated: a device-export run whose share
dispatch fails (`shareOk = false`, outcome `failed`) still leaves the
record in scope with `exported = true` and its pending_sync entry
removed, because `markAsExported` runs before the share step. -/
theorem export_dispatch_cex :
    (exportToDevice stE ["6"] true "organized" "d/" 200 true true false).fst =
      ExportOutcome.failed ∧
    ((exportToDevice stE ["6"] true "organized" "d/" 200 true true
        false).snd.fst.cargos.map (fun c => c.exported)) = [true] ∧
    (exportToDevice stE ["6"] true "organized" "d/" 200 true true false).snd.fst.pending = [] := by
  refine ⟨by decide, by decide, by decide⟩

/-- C1 amended: export state is committed after the writing phase but
before the share dispatch. A failure before or during writing leaves
the store untouched; once writing completes, every record in scope is
marked `exported = true` and its pending_sync entry is removed,
regardless of whether the share step then succeeds, fails, or is
unavailable. -/
theorem export_commit_before_share (st : Store) (selected : List String)
    (includePhotos : Bool) (format dir : String) (now : Int) (shareAvailable shareOk : Bool)
    (h : (st.cargos.filter (fun c => selected.contains c.id)).isEmpty = false) :
    (exportToDevice st selected includePhotos format dir now false shareAvailable
      shareOk).snd.fst = st ∧
    (exportToDevice st selected includePhotos format dir now true shareAvailable
      shareOk).snd.fst = markAsExported selected now st ∧
    (∀ c ∈ (markAsExported selected now st).cargos,
      selected.contains c.id = true → c.exported = true) ∧
    (markAsExported selected now st).pending =
      st.pending.filter (fun e => !selected.contains e.id) := by
  have h2 : ¬ ∀ a ∈ st.cargos, a.id ∉ selected := by
    have h3 := h
    simp at h3
    obtain ⟨a, ha, hsel⟩ := h3
    intro hall
    exact hall a ha hsel
  refine ⟨?_, ?_, ?_, rfl⟩
  · simp [exportToDevice]
    split <;> rfl
  · cases shareAvailable <;> cases shareOk <;>
      · simp [exportToDevice]
        rw [if_neg h2]
  · intro c hc hsel
    rcases List.mem_map.mp hc with ⟨a, ha, hfa⟩
    cases hsa : selected.contains a.id
    · rw [hsa] at hfa
      simp at hfa
      rw [← hfa] at hsel
      rw [hsel] at hsa
      cases hsa
    · rw [hsa] at hfa
      simp at hfa
      rw [← hfa]

/-- Witness for the amended C1 on `stE` with a failing share step. -/
theorem export_commit_before_share_witness :
    (exportToDevice stE ["6"] true "organized" "d/" 200 false true false).snd.fst = stE ∧
    (exportToDevice stE ["6"] true "organized" "d/" 200 true true false).snd.fst =
      markAsExported ["6"] 200 stE ∧
    (∀ c ∈ (markAsExported ["6"] 200 stE).cargos,
      (["6"] : List String).contains c.id = true → c.exported = true) ∧
    (markAsExported ["6"] 200 stE).pending =
      stE.pending.filter (fun e => !(["6"] : List String).contains e.id) :=
  export_commit_before_share stE ["6"] true "organized" "d/" 200 true false (by decide)

/-! ## C10 -/

/-- `addToPendingSync` preserves (indeed re-establishes) uniqueness of
ids in `pending_sync`: it first drops every entry with the record's id
and then appends exactly one fresh entry. -/
lemma addToPendingSync_nodup (c : Cargo) (isEdit : Bool) (now : Int) (st : Store)
    (h : (st.pending.map (fun e => e.id)).Nodup) :
    (((addToPendingSync c isEdit now st).pending).map (fun e => e.id)).Nodup := by
  unfold addToPendingSync
  simp only [List.map_append, List.map_cons, List.map_nil]
  rw [List.nodup_append]
  refine ⟨h.sublist ((List.filter_sublist _).map _), List.nodup_singleton _, ?_⟩
  intro x hx hy
  rcases List.mem_map.mp hx with ⟨e, he, rfl⟩
  have hne := (List.mem_filter.mp he).2
  simp at hne hy
  exact hne hy

/-- C10: if the ids in `pending_sync` are pairwise distinct, they stay
pairwise distinct after any save (create or update, which replaces
before appending) and after `markAsExported` (which only removes
entries). -/
theorem pendingSync_id_nodup_preserved (st : Store) (isEdit : Bool) (editId newId : String)
    (f : FormData) (now : Int) (ids : List String) (mnow : Int)
    (h : (st.pending.map (fun e => e.id)).Nodup) :
    (((handleSave isEdit editId newId f now st).snd.pending).map (fun e => e.id)).Nodup ∧
    (((markAsExported ids mnow st).pending).map (fun e => e.id)).Nodup := by
  constructor
  · cases hv : validateForm f
    · simp [handleSave, hv]
      exact h
    · simp only [handleSave, hv, if_pos]
      apply addToPendingSync_nodup
      show ((saveLastQualityInspector f.qualityInspector st).pending.map (fun e => e.id)).Nodup
      rw [saveLast_pending]
      exact h
  · exact h.sublist ((List.filter_sublist _).map _)

/-- Witness for C10 on a store with two distinct pending ids, saving a
record whose id collides with one of them. -/
theorem pendingSync_id_nodup_preserved_witness :
    ((((handleSave false "" "1" formEditA 5
        ⟨[], [⟨"1", "NF-1", "create", 90⟩, ⟨"2", "NF-2", "create", 91⟩], none⟩).snd.pending).map
          (fun e => e.id)).Nodup) ∧
    ((((markAsExported ["1"] 6
        ⟨[], [⟨"1", "NF-1", "create", 90⟩, ⟨"2", "NF-2", "create", 91⟩], none⟩).pending).map
          (fun e => e.id)).Nodup) :=
  pendingSync_id_nodup_preserved
    ⟨[], [⟨"1", "NF-1", "create", 90⟩, ⟨"2", "NF-2", "create", 91⟩], none⟩
    false "" "1" formEditA 5 ["1"] 6 (by decide)

end Receiving
